import Mathlib

/-!
Verification development for the Running Tracker server (`src/server.js`).

The server keeps an in-memory list `runs` of run records and exposes four
operations: list runs, create a run, delete a run by id, and a health check.
JavaScript numbers are embedded as rationals (`ℚ`); the concrete values in
this development are small decimals on which rational and IEEE double
arithmetic agree.  JSON field values of a request body are embedded as
`JValue` so that JavaScript truthiness (`!date || !distance || !duration`)
and the `parseFloat` / `parseInt` conversions can be stated faithfully.
`JValue.null` stands for an absent field (JavaScript `undefined`).
Strings are parsed only when they are plain decimal numerals; other strings
convert to `none` (NaN), which no claim exercises.
-/

/-- A JSON value appearing in a request body.  `null` models an absent
field (`undefined` in the handler's destructuring). -/
inductive JValue where
  | null
  | bool (b : Bool)
  | num (q : ℚ)
  | str (s : String)
  deriving Repr, DecidableEq

/-- JavaScript truthiness, as tested by `!date || !distance || !duration`:
`undefined`, `false`, the number `0` and the empty string are falsy. -/
def truthy : JValue → Bool
  | .null => false
  | .bool b => b
  | .num q => q != 0
  | .str s => s != ""

/-- Numeric value of a list of decimal digit characters. -/
def natOfDigits (l : List Char) : Nat :=
  l.foldl (fun a c => 10 * a + (c.toNat - 48)) 0

/-- Value of a plain decimal numeral, given as characters: digits,
optionally a dot and more digits.  Anything else gives `none`,
standing for NaN. -/
def parseDecimalChars (l : List Char) : Option ℚ :=
  let w := l.takeWhile (fun c => c != '.')
  match l.dropWhile (fun c => c != '.') with
  | [] =>
    if w.length > 0 && w.all Char.isDigit then some (natOfDigits w)
    else none
  | _ :: f =>
    if (w.length + f.length > 0) && w.all Char.isDigit
        && f.all Char.isDigit then
      some ((natOfDigits w : ℚ) + (natOfDigits f : ℚ) / (10 ^ f.length))
    else none

/-- Value of a plain decimal numeral string such as "5.2" or "0". -/
def parseDecimalString (s : String) : Option ℚ :=
  parseDecimalChars s.toList

/-- JavaScript `ToNumber` coercion, as applied by `duration / distance`.
`none` stands for NaN. -/
def toNumber : JValue → Option ℚ
  | .null => none
  | .bool b => some (if b then 1 else 0)
  | .num q => some q
  | .str s => if s = "" then some 0 else parseDecimalString s

/-- Model of `parseFloat(v)`: numbers pass through, decimal numeral strings parse,
everything else is NaN (`none`). -/
def parseFloatJ : JValue → Option ℚ
  | .num q => some q
  | .str s => parseDecimalString s
  | _ => none

/-- Truncation of a rational toward zero, as `parseInt` applied to a
number truncates it. -/
def truncQ (q : ℚ) : Int :=
  if 0 ≤ q then ⌊q⌋ else -⌊-q⌋

/-- Model of `parseInt(v)`: a number is truncated toward zero; a string yields the
value of its leading run of digits; everything else is NaN (`none`). -/
def parseIntJ : JValue → Option Int
  | .num q => some (truncQ q)
  | .str s =>
    let ds := s.toList.takeWhile Char.isDigit
    if ds.length > 0 then some (natOfDigits ds) else none
  | _ => none

/-- A stored run record, as built by the POST handler and as seeded. -/
structure Run where
  id : Int
  date : JValue
  distance : ℚ
  duration : Int
  pace : String
  location : JValue
  deriving Repr, DecidableEq

/-- A create request body, destructured as
`const \x7b date, distance, duration, location \x7d = req.body`. -/
structure CreateReq where
  date : JValue
  distance : JValue
  duration : JValue
  location : JValue
  deriving Repr, DecidableEq

/-- The responses the four handlers can send. -/
inductive Response where
  | ok200 (body : List Run)
  | created201 (r : Run)
  | badRequest400 (msg : String)
  | notFound404 (msg : String)
  | noContent204
  | healthJson (status : String) (timestamp : String)
  deriving Repr, DecidableEq

/-- Model of `seconds.toString().padStart(2, '0')`. -/
def padStart2 (s : String) : String :=
  if s.length = 0 then "00" else if s.length = 1 then "0" ++ s else s

/-- Model of `calculatePace(distance, duration)` from `server.js`:
`paceInMinutes = duration / distance`, `minutes = Math.floor(...)`,
`seconds = Math.round((paceInMinutes - minutes) * 60)`; `Math.round x`
is `⌊x + 1/2⌋`.  Rendered as `minutes ++ ":" ++ padded seconds`. -/
def calculatePace (distance duration : ℚ) : String :=
  let paceInMinutes := duration / distance
  let minutes := ⌊paceInMinutes⌋
  let seconds := ⌊(paceInMinutes - minutes) * 60 + 1 / 2⌋
  toString minutes ++ ":" ++ padStart2 (toString seconds)

/-- The two seed records of the in-memory `runs` array. -/
def initialRuns : List Run :=
  [ { id := 1, date := .str "2024-01-15", distance := 5.2, duration := 28,
      pace := "5:23", location := .str "Central Park" },
    { id := 2, date := .str "2024-01-17", distance := 3.1, duration := 18,
      pace := "5:48", location := .str "Riverside Trail" } ]

/-- Handler of `GET /api/runs`: respond with the whole collection; no state change. -/
def getRuns (runs : List Run) : List Run × Response :=
  (runs, .ok200 runs)

/-- Handler of `POST /api/runs`: reject with 400 when `date`, `distance` or
`duration` is falsy; otherwise build the new record (id is
`runs.length + 1`, distance is `parseFloat(distance)`, duration is
`parseInt(duration)`, pace is `calculatePace(distance, duration)` on the
raw values, location defaults to "Unknown") and push it.  The NaN
fallback `.getD 0` is never reached under the numeric hypotheses of the
theorems below. -/
def postRuns (runs : List Run) (req : CreateReq) : List Run × Response :=
  if !(truthy req.date && truthy req.distance && truthy req.duration) then
    (runs, .badRequest400 "Missing required fields")
  else
    let pace := calculatePace ((toNumber req.distance).getD 0)
      ((toNumber req.duration).getD 0)
    let newRun : Run :=
      { id := (runs.length : Int) + 1
        date := req.date
        distance := (parseFloatJ req.distance).getD 0
        duration := (parseIntJ req.duration).getD 0
        pace := pace
        location := if truthy req.location then req.location
          else .str "Unknown" }
    (runs ++ [newRun], .created201 newRun)

/-- Model of `Array.prototype.findIndex`: index of the first element satisfying
the predicate, `-1` when there is none. -/
def jsFindIndex (p : Run → Bool) : List Run → Int
  | [] => -1
  | x :: xs =>
    if p x then 0
    else
      let r := jsFindIndex p xs
      if r = -1 then -1 else r + 1

/-- Handler of `DELETE /api/runs/:id`: find the first record with the given id;
404 when absent, otherwise `splice(index, 1)` and 204. -/
def deleteRunById (runs : List Run) (id : Int) : List Run × Response :=
  let index := jsFindIndex (fun run => run.id == id) runs
  if index = -1 then (runs, .notFound404 "Run not found")
  else (runs.eraseIdx index.toNat, .noContent204)

/-- Handler of `GET /health`: respond `\x7b status: 'healthy', timestamp: ... \x7d`.
The wall-clock timestamp is passed in as a parameter. -/
def healthCheck (runs : List Run) (ts : String) : List Run × Response :=
  (runs, .healthJson "healthy" ts)

/-- One client operation against the server. -/
inductive Op where
  | listRuns
  | create (req : CreateReq)
  | deleteById (id : Int)
  | health (ts : String)

/-- The state transition of one operation. -/
def applyOp (runs : List Run) : Op → List Run × Response
  | .listRuns => getRuns runs
  | .create req => postRuns runs req
  | .deleteById id => deleteRunById runs id
  | .health ts => healthCheck runs ts

/-- The records an operation inserts: the new run of a successful
create, nothing otherwise. -/
def createdRecords (runs : List Run) : Op → List Run
  | .create req =>
    match (postRuns runs req).2 with
    | .created201 r => [r]
    | _ => []
  | _ => []

/-- Modelled from the spec's words: `pace_minutes = duration / distance`,
`whole_minutes = floor(pace_minutes)`,
`seconds = round((pace_minutes − whole_minutes) × 60)`, rendered as
whole minutes, a colon, and the seconds zero-padded to two digits. -/
def paceSpecString (distance duration : ℚ) : String :=
  let paceMinutes := duration / distance
  let wholeMinutes := ⌊paceMinutes⌋
  let seconds := round ((paceMinutes - (wholeMinutes : ℚ)) * 60)
  toString wholeMinutes ++ ":" ++ padStart2 (toString seconds)

/-- The spec's reading of the validation condition in claim C2:
a field is absent or the empty string. -/
def absentOrEmpty (v : JValue) : Prop :=
  v = .null ∨ v = .str ""

instance : DecidablePred absentOrEmpty := fun v => by
  unfold absentOrEmpty; infer_instance

/-- Evaluation helper: a floor is settled by two rational inequalities. -/
lemma floor_eval {r : ℚ} {m : ℤ} (h1 : (m : ℚ) ≤ r) (h2 : r < m + 1) :
    ⌊r⌋ = m := by
  rw [Int.floor_eq_iff]
  exact ⟨h1, h2⟩

/-- Evaluation helper for `calculatePace` at inputs whose floor values
are known. -/
lemma calculatePace_eval (d n : ℚ) (m s : ℤ)
    (hm : ⌊n / d⌋ = m) (hs : ⌊(n / d - (m : ℚ)) * 60 + 1 / 2⌋ = s) :
    calculatePace d n = toString m ++ ":" ++ padStart2 (toString s) := by
  simp only [calculatePace]
  rw [hm, hs]

lemma pace_5p2_28 : calculatePace 5.2 28 = "5:23" := by
  rw [calculatePace_eval 5.2 28 5 23 (floor_eval (by norm_num) (by norm_num))
    (floor_eval (by norm_num) (by norm_num))]
  decide

lemma pace_3p1_18 : calculatePace 3.1 18 = "5:48" := by
  rw [calculatePace_eval 3.1 18 5 48 (floor_eval (by norm_num) (by norm_num))
    (floor_eval (by norm_num) (by norm_num))]
  decide

lemma pace_1p002_2 : calculatePace 1.002 2 = "1:60" := by
  rw [calculatePace_eval 1.002 2 1 60 (floor_eval (by norm_num) (by norm_num))
    (floor_eval (by norm_num) (by norm_num))]
  decide

/-- The create request of the spec's worked example:
`POST /api/runs` with date 2024-01-15, distance 5.2, duration 28,
location "Central Park". -/
def exampleCreateReq : CreateReq :=
  { date := .str "2024-01-15", distance := .num 5.2, duration := .num 28,
    location := .str "Central Park" }

/-- The record the worked example's create produces. -/
def exampleNewRun : Run :=
  { id := 3, date := .str "2024-01-15", distance := 5.2, duration := 28,
    pace := "5:23", location := .str "Central Park" }

/-- C8: the health check succeeds in every collection state, reporting
status "healthy" and the supplied timestamp, and leaves the collection
unchanged. -/
theorem health_always_healthy :
    ∀ (runs : List Run) (ts : String),
      healthCheck runs ts = (runs, .healthJson "healthy" ts) :=
  fun _ _ => rfl

/-- If no element of the list satisfies the predicate, `findIndex`
answers `-1`. -/
lemma jsFindIndex_none (p : Run → Bool) :
    ∀ l : List Run, (∀ r ∈ l, p r = false) → jsFindIndex p l = -1 := by
  intro l
  induction l with
  | nil => intro _; rfl
  | cons a l ih =>
    intro h
    have ha : p a = false := h a (by simp)
    have hl : jsFindIndex p l = -1 := ih fun r hr => h r (by simp [hr])
    simp [jsFindIndex, ha, hl]

/-- If some element of the list satisfies the predicate, the list splits
at the first such element, `findIndex` answers its index, and removing
that index keeps exactly the other elements in order. -/
lemma jsFindIndex_found (p : Run → Bool) :
    ∀ l : List Run, (∃ r ∈ l, p r = true) →
      ∃ pre x suf, l = pre ++ x :: suf ∧ p x = true ∧
        (∀ y ∈ pre, p y = false) ∧
        jsFindIndex p l = (pre.length : Int) ∧
        l.eraseIdx pre.length = pre ++ suf := by
  intro l
  induction l with
  | nil => rintro ⟨r, hr, _⟩; cases hr
  | cons a l ih =>
    intro h
    by_cases ha : p a = true
    · exact ⟨[], a, l, rfl, ha, by simp, by simp [jsFindIndex, ha], rfl⟩
    · have ha' : p a = false := by
        cases hpa : p a
        · rfl
        · exact absurd hpa ha
      have hmem : ∃ r ∈ l, p r = true := by
        rcases h with ⟨r, hr, hpr⟩
        rcases List.mem_cons.mp hr with rfl | hr'
        · exact absurd hpr ha
        · exact ⟨r, hr', hpr⟩
      rcases ih hmem with ⟨pre, x, suf, hl, hx, hpre, hidx, herase⟩
      refine ⟨a :: pre, x, suf, by simp [hl], hx, ?_, ?_, ?_⟩
      · intro y hy
        rcases List.mem_cons.mp hy with rfl | hy'
        · exact ha'
        · exact hpre y hy'
      · have hne : ¬ ((pre.length : Int) = -1) := by omega
        simp only [jsFindIndex, ha', Bool.false_eq_true, if_false, hidx,
          if_neg hne, List.length_cons]
        push_cast
        omega
      · simp only [List.length_cons, List.eraseIdx_cons_succ, herase]
        rfl

/-- C5: deleting an id that matches no record answers 404 "Run not
found" and leaves the collection exactly as it was. -/
theorem delete_missing_not_found :
    ∀ (runs : List Run) (id : Int), (∀ r ∈ runs, r.id ≠ id) →
      deleteRunById runs id = (runs, .notFound404 "Run not found") := by
  intro runs id h
  have hidx : jsFindIndex (fun run => run.id == id) runs = -1 :=
    jsFindIndex_none _ runs fun r hr => beq_eq_false_iff_ne.mpr (h r hr)
  simp [deleteRunById, hidx]

/-- Witness for C5: deleting id 3 from the seed state. -/
theorem delete_missing_not_found_witness :
    deleteRunById initialRuns 3 = (initialRuns, .notFound404 "Run not found") :=
  delete_missing_not_found initialRuns 3 (by decide)

/-- C4: deleting an id that matches some record removes exactly the
first matching record, keeps the others in order, shrinks the collection
by one, and answers 204. -/
theorem delete_existing_removes_first_match :
    ∀ (runs : List Run) (id : Int), (∃ r ∈ runs, r.id = id) →
      ∃ pre x suf, runs = pre ++ x :: suf ∧ x.id = id ∧
        (∀ y ∈ pre, y.id ≠ id) ∧
        deleteRunById runs id = (pre ++ suf, .noContent204) ∧
        (pre ++ suf).length + 1 = runs.length := by
  intro runs id h
  have h' : ∃ r ∈ runs, (fun run => run.id == id) r = true := by
    rcases h with ⟨r, hr, hid⟩
    exact ⟨r, hr, beq_iff_eq.mpr hid⟩
  rcases jsFindIndex_found _ runs h' with ⟨pre, x, suf, hl, hx, hpre, hidx, herase⟩
  have hne : ¬ ((pre.length : Int) = -1) := by omega
  refine ⟨pre, x, suf, hl, beq_iff_eq.mp hx, ?_, ?_, ?_⟩
  · intro y hy
    exact beq_eq_false_iff_ne.mp (hpre y hy)
  · simp only [deleteRunById, hidx, if_neg hne, Int.toNat_natCast, herase]
  · simp [hl]
    omega

/-- Witness for C4: deleting id 1 from the seed state removes the first
seed record and keeps the second. -/
theorem delete_existing_removes_first_match_witness :
    ∃ pre x suf, initialRuns = pre ++ x :: suf ∧ x.id = 1 ∧
      (∀ y ∈ pre, y.id ≠ 1) ∧
      deleteRunById initialRuns 1 = (pre ++ suf, .noContent204) ∧
      (pre ++ suf).length + 1 = initialRuns.length :=
  delete_existing_removes_first_match initialRuns 1
    ⟨initialRuns.head (by decide), by simp [initialRuns]⟩

/-- C2 amended: the create fails with 400 "Missing required fields"
exactly when `date`, `distance` or `duration` is falsy (absent, empty,
the number 0, or false), and on that failure the collection is
unchanged. -/
theorem create_missing_field_iff_falsy :
    ∀ (runs : List Run) (req : CreateReq),
      ((postRuns runs req).2 = .badRequest400 "Missing required fields" ↔
        (truthy req.date = false ∨ truthy req.distance = false ∨
          truthy req.duration = false)) ∧
      ((postRuns runs req).2 = .badRequest400 "Missing required fields" →
        (postRuns runs req).1 = runs) := by
  intro runs req
  cases hd : truthy req.date <;> cases hdi : truthy req.distance <;>
    cases hdu : truthy req.duration <;>
    simp [postRuns, hd, hdi, hdu]

/-- A create request whose three required fields are all present and
non-empty but whose distance is the number 0. -/
def zeroDistanceReq : CreateReq :=
  { date := .str "2024-01-15", distance := .num 0, duration := .num 5,
    location := .null }

/-- Counterexample to C2 as stated: this request has `date`, `distance`
and `duration` all present and non-empty, yet the create fails with
400 "Missing required fields" (the handler tests JavaScript falsiness,
which the number 0 triggers). -/
theorem create_missing_field_iff_cex :
    (postRuns initialRuns zeroDistanceReq).2
        = .badRequest400 "Missing required fields" ∧
    ¬ absentOrEmpty zeroDistanceReq.date ∧
    ¬ absentOrEmpty zeroDistanceReq.distance ∧
    ¬ absentOrEmpty zeroDistanceReq.duration := by
  refine ⟨?_, by decide, by decide, by decide⟩
  simp [postRuns, zeroDistanceReq, truthy]

/-- Witness for C2's amended theorem at the counterexample request:
the failing create leaves the seed collection unchanged. -/
theorem create_missing_field_iff_falsy_witness :
    (postRuns initialRuns zeroDistanceReq).1 = initialRuns :=
  (create_missing_field_iff_falsy initialRuns zeroDistanceReq).2
    (by simp [postRuns, zeroDistanceReq, truthy])

/-- A create request carrying the string "0" as distance. -/
def zeroStringReq : CreateReq :=
  { date := .str "2024-01-15", distance := .str "0", duration := .num 5,
    location := .null }

/-- C9: a create whose distance or duration is the JSON number 0 is
rejected as missing (0 is falsy) with the collection unchanged, while
the string "0" is truthy and converts to the number 0, so a create
carrying it passes validation and appends a record, reaching the
unguarded division in `calculatePace` with a zero divisor. -/
theorem create_zero_number_rejected :
    (∀ (runs : List Run) (req : CreateReq),
      (req.distance = .num 0 ∨ req.duration = .num 0) →
      postRuns runs req = (runs, .badRequest400 "Missing required fields")) ∧
    truthy (.str "0") = true ∧ toNumber (.str "0") = some 0 ∧
    (∃ r, (postRuns initialRuns zeroStringReq).2 = .created201 r) := by
  refine ⟨?_, by decide, by decide, ⟨_, rfl⟩⟩
  intro runs req h
  have hz : (truthy req.date && truthy req.distance &&
      truthy req.duration) = false := by
    rcases h with h | h
    · simp [h, truthy]
    · simp [h, truthy]
  simp [postRuns, hz]

/-- Witness for C9: a create with distance the number 0 on the seed
state is rejected and leaves the seeds alone. -/
theorem create_zero_number_rejected_witness :
    postRuns initialRuns zeroDistanceReq
      = (initialRuns, .badRequest400 "Missing required fields") :=
  create_zero_number_rejected.1 initialRuns zeroDistanceReq (Or.inl rfl)

/-- A valid create request with plain numeral string fields. -/
def strCreateReqA : CreateReq :=
  { date := .str "2024-02-01", distance := .str "4", duration := .str "20",
    location := .str "Park" }

/-- A second valid create request with plain numeral string fields. -/
def strCreateReqB : CreateReq :=
  { date := .str "2024-02-02", distance := .str "5", duration := .str "25",
    location := .str "Trail" }

/-- C3: a successful create assigns id `collection length + 1`, and
after deleting seed record 1 and creating once, the collection holds two
records that both carry id 2. -/
theorem create_id_length_plus_one :
    (∀ (runs rest : List Run) (req : CreateReq) (r : Run),
      postRuns runs req = (rest, .created201 r) →
      r.id = (runs.length : Int) + 1) ∧
    ((postRuns (deleteRunById initialRuns 1).1 strCreateReqA).1).map Run.id
      = [2, 2] := by
  constructor
  · intro runs rest req r h
    by_cases hc :
        (truthy req.date && truthy req.distance && truthy req.duration) = true
    · simp only [postRuns, hc, Bool.not_true, Bool.false_eq_true, if_false,
        Prod.mk.injEq, Response.created201.injEq] at h
      rcases h with ⟨-, hr⟩
      rw [← hr]
    · have hc' := Bool.eq_false_iff.mpr hc
      simp [postRuns, hc'] at h
  · decide

/-- Witness for C3: the worked example's create on the seed state gets
id `2 + 1 = 3`. -/
theorem create_id_length_plus_one_witness :
    exampleNewRun.id = (initialRuns.length : Int) + 1 :=
  create_id_length_plus_one.1 initialRuns (initialRuns ++ [exampleNewRun])
    exampleCreateReq exampleNewRun (by
      have hcond : (truthy exampleCreateReq.date &&
          truthy exampleCreateReq.distance &&
          truthy exampleCreateReq.duration) = true := by
        simp [exampleCreateReq, truthy, bne_iff_ne]
        norm_num
      simp only [postRuns, hcond, Bool.not_true, Bool.false_eq_true, if_false,
        Prod.mk.injEq, Response.created201.injEq]
      constructor
      · simp [exampleCreateReq, exampleNewRun, initialRuns, toNumber,
          parseFloatJ, parseIntJ, truncQ, truthy, pace_5p2_28]
      · simp [exampleCreateReq, exampleNewRun, initialRuns, toNumber,
          parseFloatJ, parseIntJ, truncQ, truthy, pace_5p2_28])

/-- C6: listing always returns the whole collection unchanged, and after
two successful creates on the seed state the listing holds both new
records, in creation order, with the distinct ids 3 and 4 assigned from
the lengths. -/
theorem list_returns_collection :
    (∀ runs : List Run, getRuns runs = (runs, .ok200 runs)) ∧
    (∃ rA rB,
      postRuns initialRuns strCreateReqA
        = (initialRuns ++ [rA], .created201 rA) ∧
      postRuns (initialRuns ++ [rA]) strCreateReqB
        = (initialRuns ++ [rA, rB], .created201 rB) ∧
      rA.id = 3 ∧ rB.id = 4 ∧
      getRuns (initialRuns ++ [rA, rB])
        = (initialRuns ++ [rA, rB], .ok200 (initialRuns ++ [rA, rB]))) :=
  ⟨fun _ => rfl, ⟨_, _, rfl, rfl, rfl, rfl, rfl⟩⟩

/-- C7: one step of any operation never alters a stored record: the new
collection is a sublist of the old collection extended by the records
the operation inserts, so every record still in the collection is
exactly as it was at its insertion. -/
theorem records_never_modified :
    ∀ (runs : List Run) (op : Op),
      List.Sublist ((applyOp runs op).1) (runs ++ createdRecords runs op) := by
  intro runs op
  cases op with
  | listRuns => simp [applyOp, getRuns, createdRecords]
  | health ts => simp [applyOp, healthCheck, createdRecords]
  | create req =>
    by_cases hc :
        (truthy req.date && truthy req.distance && truthy req.duration) = true
    · simp [applyOp, postRuns, createdRecords, hc]
    · have hc' := Bool.eq_false_iff.mpr hc
      simp [applyOp, postRuns, createdRecords, hc']
  | deleteById id =>
    by_cases hidx : jsFindIndex (fun run => run.id == id) runs = -1
    · simp [applyOp, deleteRunById, createdRecords, hidx]
    · simp only [applyOp, deleteRunById, createdRecords, if_neg hidx,
        List.append_nil]
      exact List.eraseIdx_sublist runs _

/-- The record a successful create builds, as in the else branch of the
POST handler. -/
def newRunOf (runs : List Run) (req : CreateReq) : Run :=
  { id := (runs.length : Int) + 1
    date := req.date
    distance := (parseFloatJ req.distance).getD 0
    duration := (parseIntJ req.duration).getD 0
    pace := calculatePace ((toNumber req.distance).getD 0)
      ((toNumber req.duration).getD 0)
    location := if truthy req.location then req.location
      else .str "Unknown" }

/-- Unfolding of a create whose three required fields are truthy. -/
lemma postRuns_success (runs : List Run) (req : CreateReq)
    (hc : (truthy req.date && truthy req.distance &&
      truthy req.duration) = true) :
    postRuns runs req
      = (runs ++ [newRunOf runs req], .created201 (newRunOf runs req)) := by
  simp only [postRuns, newRunOf, hc, Bool.not_true, Bool.false_eq_true,
    if_false]

/-- A create request whose distance and duration are JSON numbers. -/
def numReq (dt : JValue) (d : ℚ) (n : ℤ) (loc : JValue) : CreateReq :=
  { date := dt, distance := .num d, duration := .num (n : ℚ),
    location := loc }

/-- C1: every valid create (truthy date, positive numeric distance,
positive integer duration) stores and returns a run whose pace string is
the spec's rendering of floor(duration/distance) minutes and
round(fraction times 60) seconds zero-padded to two digits; and the
spec's worked example — distance 5.2, duration 28 on the two seed
records — produces id 3 and pace "5:23". -/
theorem create_pace_matches_spec :
    (∀ (runs : List Run) (dt loc : JValue) (d : ℚ) (n : ℤ),
      truthy dt = true → 0 < d → 0 < n →
      ∃ r, postRuns runs (numReq dt d n loc)
          = (runs ++ [r], .created201 r) ∧
        r.pace = paceSpecString d (n : ℚ)) ∧
    postRuns initialRuns exampleCreateReq
      = (initialRuns ++ [exampleNewRun], .created201 exampleNewRun) := by
  constructor
  · intro runs dt loc d n hdt hd hn
    have hdz : truthy (JValue.num d) = true := by
      simp only [truthy, bne_iff_ne, ne_eq]
      exact ne_of_gt hd
    have hnz : truthy (JValue.num (n : ℚ)) = true := by
      simp only [truthy, bne_iff_ne, ne_eq]
      exact Int.cast_ne_zero.mpr (ne_of_gt hn)
    have hcond : (truthy (numReq dt d n loc).date &&
        truthy (numReq dt d n loc).distance &&
        truthy (numReq dt d n loc).duration) = true := by
      simp [numReq, hdt, hdz, hnz]
    refine ⟨newRunOf runs (numReq dt d n loc),
      postRuns_success _ _ hcond, ?_⟩
    simp only [newRunOf, numReq, toNumber, Option.getD_some]
    simp only [calculatePace, paceSpecString, round_eq]
  · have hcond : (truthy exampleCreateReq.date &&
        truthy exampleCreateReq.distance &&
        truthy exampleCreateReq.duration) = true := by
      simp [exampleCreateReq, truthy, bne_iff_ne]
      norm_num
    rw [postRuns_success _ _ hcond]
    have h : newRunOf initialRuns exampleCreateReq = exampleNewRun := by
      simp [newRunOf, exampleCreateReq, exampleNewRun, initialRuns, toNumber,
        parseFloatJ, parseIntJ, truncQ, truthy, pace_5p2_28]
    rw [h]

/-- Witness for C1: the general statement instantiated at the worked
example's inputs on the seed state. -/
theorem create_pace_matches_spec_witness :
    ∃ r, postRuns initialRuns
        (numReq (.str "2024-01-15") 5.2 28 (.str "Central Park"))
        = (initialRuns ++ [r], .created201 r) ∧
      r.pace = paceSpecString 5.2 ((28 : ℤ) : ℚ) :=
  create_pace_matches_spec.1 initialRuns (.str "2024-01-15")
    (.str "Central Park") 5.2 28 (by decide) (by norm_num) (by norm_num)

/-- The create request that drives the rounded seconds to 60. -/
def overflowReq : CreateReq :=
  { date := .str "2024-03-01", distance := .num 1.002, duration := .num 2,
    location := .null }

/-- The record that create stores: its pace string is "1:60". -/
def overflowRun : Run :=
  { id := 3, date := .str "2024-03-01", distance := 1.002, duration := 2,
    pace := "1:60", location := .str "Unknown" }

/-- C10: a valid create with distance 1.002 and duration 2 succeeds and
stores a run whose pace string is "1:60" — the rounded seconds reach 60
without carrying into the minutes, so the output is not always a
well-formed M:SS time with SS below 60. -/
theorem pace_seconds_can_reach_sixty :
    postRuns initialRuns overflowReq
      = (initialRuns ++ [overflowRun], .created201 overflowRun) := by
  have hcond : (truthy overflowReq.date && truthy overflowReq.distance &&
      truthy overflowReq.duration) = true := by
    simp [overflowReq, truthy, bne_iff_ne]
    norm_num
  rw [postRuns_success _ _ hcond]
  have h : newRunOf initialRuns overflowReq = overflowRun := by
    simp [newRunOf, overflowReq, overflowRun, initialRuns, toNumber,
      parseFloatJ, parseIntJ, truncQ, truthy, pace_1p002_2]
  rw [h]
